import Mathlib

namespace ExpenseTracker

/-!
Verification of the expense-tracker repository's reconciliation, aggregation,
export and auth-gate logic, as a shallow embedding in Lean 4.

Conventions of the embedding:
  * Firestore document collections are Lean lists kept in creation order
    (the source always queries `orderBy('createdAt', 'asc')` for categories
    and keeps expenses newest-first; ordering is irrelevant to every claim,
    so timestamps themselves are abstracted away).
  * JS numbers carrying monetary amounts are modelled as exact rationals.
  * Possibly-missing document fields are `Option` values.
  * Fallible external reads are an explicit result type (`ReadResult`).
-/

/-- Client-side expense record (src/types, used by components and services).
`userId` is the owner stamp added by the expense store adapter. -/
structure Expense where
  id : String
  userId : String
  amount : ℚ
  description : String
  category : String
  date : String
  createdAt : String
  deriving Repr, DecidableEq

/-! ### Group-by-category aggregation

`src/src/components/Dashboard.tsx` lines 25-28 (`categoryTotals`) and
`src/src/utils/pdfGenerator.ts` lines 227-232 (`getCategoryTotals`) contain
the same reduce:
  `acc[expense.category] = (acc[expense.category] || 0) + expense.amount`
A JS object is a finite map with each key present at most once and new keys
appended in insertion order; `bumpTotal` performs exactly that update on the
association-list representation. -/

/-- Performs `acc[cat] = (acc[cat] || 0) + amt` on the insertion-ordered record. -/
def bumpTotal : List (String × ℚ) → String → ℚ → List (String × ℚ)
  | [], cat, amt => [(cat, amt)]
  | (k, v) :: rest, cat, amt =>
    if k = cat then (k, v + amt) :: rest else (k, v) :: bumpTotal rest cat amt

/-- Computes `expenses.reduce((acc, e) => { acc[e.category] = (acc[e.category] || 0) + e.amount; return acc }, {})`. -/
def getCategoryTotals (expenses : List Expense) : List (String × ℚ) :=
  expenses.foldl (fun acc e => bumpTotal acc e.category e.amount) []

/-- Sum of the values of a category-totals record. -/
def totalsSum (acc : List (String × ℚ)) : ℚ :=
  (acc.map Prod.snd).sum

/-- Sum of the amounts of a list of expenses. -/
def amountSum (expenses : List Expense) : ℚ :=
  (expenses.map Expense.amount).sum

/-! ### Expense store adapter and statistics

`src/src/services/expenseService.ts`.  The expense collection is the list of
all stored expense records; `getUserExpenses` is the
`where('userId','==',userId)` query (the `orderBy('createdAt','desc')` only
orders the already-ordered list and does not affect membership). -/

/-- Source `getUserExpenses`: all expenses owned by `userId`. -/
def getUserExpenses (store : List Expense) (userId : String) : List Expense :=
  store.filter (fun e => e.userId = userId)

/-- Result shape of `getExpenseStats` (expenseService.ts lines 188-210). -/
structure ExpenseStats where
  totalExpenses : Nat
  totalAmount : ℚ
  averageAmount : ℚ
  expenseCount : Nat
  deriving Repr, DecidableEq

/-- Source `getExpenseStats`: sum, count, and guarded average
(`expenseCount > 0 ? totalAmount / expenseCount : 0`). -/
def getExpenseStats (store : List Expense) (userId : String) : ExpenseStats :=
  let expenses := getUserExpenses store userId
  let totalAmount := expenses.foldl (fun sum e => sum + e.amount) 0
  let expenseCount := expenses.length
  let averageAmount := if expenseCount > 0 then totalAmount / (expenseCount : ℚ) else 0
  { totalExpenses := expenseCount
    totalAmount := totalAmount
    averageAmount := averageAmount
    expenseCount := expenseCount }

/-! ### Session/identity gate

`src/src/services/authService.ts`.  The external identity provider and the
allowlist document read are inputs of the world state: `authAttempt` is
`signInWithEmailAndPassword` (throwing an `AuthError` on failure),
`allowRead` is `getDoc(doc(db,'authorizedUsers',email))` which can fail
(caught in `isAuthorizedUser`) or return a possibly-absent document. -/

/-- Outcome of an external document read: success with a value, or a thrown
store error (the `catch` branch). -/
inductive ReadResult (α : Type) where
  | ok (val : α)
  | err
  deriving Repr, DecidableEq

/-- Stored `authorizedUsers/{email}` document data; the `isActive` field may
be absent. -/
structure AllowDoc where
  isActive : Option Bool
  deriving Repr, DecidableEq

/-- Source `isAuthorizedUser` (authService.ts lines 30-38):
`authorizedUserDoc.exists() && authorizedUserDoc.data()?.isActive === true`,
returning `false` when the read throws. -/
def isAuthorizedUser (allowRead : String → ReadResult (Option AllowDoc))
    (email : String) : Bool :=
  match allowRead email with
  | ReadResult.err => false
  | ReadResult.ok none => false
  | ReadResult.ok (some d) => d.isActive = some true

/-- Provider-side user record returned by a successful credential check. -/
structure FirebaseUser where
  uid : String
  email : String
  displayName : Option String
  deriving Repr, DecidableEq

/-- Provider error thrown by a failed credential check. -/
structure AuthError where
  code : String
  message : String
  deriving Repr, DecidableEq

/-- Stored `users/{uid}` profile document (timestamps abstracted). -/
structure UserDoc where
  uid : String
  email : String
  name : String
  isActive : Bool
  deriving Repr, DecidableEq

/-- Client `User` shape. -/
structure User where
  id : String
  email : String
  name : String
  deriving Repr, DecidableEq

/-- Result shape `AuthResult` (authService.ts lines 22-26). -/
structure AuthResult where
  success : Bool
  user : Option User
  error : Option String
  deriving Repr, DecidableEq

/-- World state threaded through `signIn`: the provider's credential check,
the allowlist read, the provider session, and the `users` collection. -/
structure World where
  authAttempt : String → String → ReadResult FirebaseUser
  authFailure : String → String → AuthError
  allowRead : String → ReadResult (Option AllowDoc)
  session : Option FirebaseUser
  users : List UserDoc

/-- The rejection message returned for a disallowed principal. -/
def notAuthorizedMessage : String :=
  "You are not authorized to access this application. Please contact your administrator."

/-- The `switch (authError.code)` mapping of provider errors to user-facing
messages (authService.ts lines 69-85). -/
def signInErrorMessage (e : AuthError) : String :=
  if e.code = "auth/user-not-found" ∨ e.code = "auth/wrong-password" then
    "Invalid email or password."
  else if e.code = "auth/invalid-email" then "Invalid email address."
  else if e.code = "auth/user-disabled" then "This account has been disabled."
  else if e.code = "auth/too-many-requests" then
    "Too many failed attempts. Please try again later."
  else e.message

/-- Computes `email.split('@')[0]`. -/
def localPart (email : String) : String :=
  (email.splitOn "@").headD ""

/-- The `User` value built in `createOrUpdateUser`. -/
def mkUser (fu : FirebaseUser) : User :=
  { id := fu.uid, email := fu.email, name := fu.displayName.getD (localPart fu.email) }

/-- Source `createOrUpdateUser` (authService.ts lines 105-132): create the profile
document on first sight, else only bump the (abstracted) last-login time. -/
def createOrUpdateUser (w : World) (fu : FirebaseUser) : World × User :=
  let u := mkUser fu
  if w.users.any (fun d => d.uid = fu.uid) then (w, u)
  else
    ({ w with users :=
        w.users ++ [{ uid := fu.uid, email := u.email, name := u.name, isActive := true }] },
      u)

/-- Source `signIn` (authService.ts lines 41-92): authenticate first (a provider
success leaves an active provider session), then check the allowlist; on a
disallowed principal, sign the provider session out and return the rejection;
on a provider error, map the error code to a message. -/
def signIn (w : World) (email password : String) : World × AuthResult :=
  match w.authAttempt email password with
  | ReadResult.err =>
    (w, { success := false, user := none,
          error := some (signInErrorMessage (w.authFailure email password)) })
  | ReadResult.ok fu =>
    let w1 := { w with session := some fu }
    if isAuthorizedUser w1.allowRead email then
      let wu := createOrUpdateUser w1 fu
      (wu.1, { success := true, user := some wu.2, error := none })
    else
      ({ w1 with session := none },
       { success := false, user := none, error := some notAuthorizedMessage })

/-- A concrete world whose provider accepts the credentials "a@b.c"/"pw" but
whose allowlist holds no entry for any email. -/
def disallowedWorld : World :=
  { authAttempt := fun e p =>
      if e = "a@b.c" ∧ p = "pw" then
        ReadResult.ok { uid := "u1", email := "a@b.c", displayName := none }
      else ReadResult.err
    authFailure := fun _ _ => { code := "auth/wrong-password", message := "" }
    allowRead := fun _ => ReadResult.ok none
    session := none
    users := [] }

/-! ### Category store adapter

`src/src/services/categoryService.ts`.  Stored category documents may lack
the flag fields (`Option`); the client `Category` shape always has them,
filled by `convertToCategory`.  The document collection is kept in creation
order, so the `orderBy('createdAt','asc')` of the queries is the identity on
the filtered list; creation timestamps are abstracted away. -/

/-- Data of a stored `categories` document. -/
structure CatDocData where
  userId : String
  name : String
  color : Option String
  icon : Option String
  isDefault : Option Bool
  isActive : Option Bool
  expenseCount : Option Nat
  deriving Repr, DecidableEq

/-- A stored `categories` document with its id. -/
structure CatDoc where
  id : String
  data : CatDocData
  deriving Repr, DecidableEq

/-- Client `Category` shape (categoryService.ts lines 18-28). -/
structure Category where
  id : String
  userId : String
  name : String
  color : Option String
  icon : Option String
  isDefault : Bool
  isActive : Bool
  expenseCount : Nat
  deriving Repr, DecidableEq

/-- The `categories` collection with the id counter used by `addDoc`. -/
structure CatStore where
  docs : List CatDoc
  nextId : Nat
  deriving Repr, DecidableEq

/-- Source `convertToCategory` (categoryService.ts lines 50-63):
`isDefault: data.isDefault || false`, `isActive: data.isActive !== false`,
`expenseCount: data.expenseCount || 0`. -/
def convertToCategory (d : CatDoc) : Category :=
  { id := d.id
    userId := d.data.userId
    name := d.data.name
    color := d.data.color
    icon := d.data.icon
    isDefault := d.data.isDefault.getD false
    isActive := match d.data.isActive with
      | some b => b
      | none => true
    expenseCount := d.data.expenseCount.getD 0 }

/-- Source `getUserCategories` (categoryService.ts lines 183-206): the
`where('userId','==',userId)` query, with `where('isActive','==',true)`
added unless `includeInactive` (a Firestore equality filter matches only
documents whose stored field equals `true`). -/
def getUserCategories (s : CatStore) (userId : String) (includeInactive : Bool) :
    List Category :=
  let docs :=
    if includeInactive then s.docs.filter (fun d => d.data.userId = userId)
    else s.docs.filter (fun d => d.data.userId = userId ∧ d.data.isActive = some true)
  docs.map convertToCategory

/-- Source `getCategory` (categoryService.ts lines 167-180): point lookup by id. -/
def getCategory (s : CatStore) (categoryId : String) : Option Category :=
  (s.docs.find? (fun d => d.id = categoryId)).map convertToCategory

/-- The result set pushed by `subscribeToUserCategories` (categoryService.ts
lines 220-234) on a snapshot of the store: the active categories of the
user. -/
def subscribeSnapshot (s : CatStore) (userId : String) : List Category :=
  (s.docs.filter (fun d => d.data.userId = userId ∧ d.data.isActive = some true)).map
    convertToCategory

/-- The fixed hardcoded default category set (categoryService.ts lines
38-47): name, color, icon. -/
def defaultCategories : List (String × String × String) :=
  [("Food & Dining", "#FF6B6B", "🍽️"),
   ("Transportation", "#4ECDC4", "🚗"),
   ("Shopping", "#45B7D1", "🛍️"),
   ("Entertainment", "#96CEB4", "🎬"),
   ("Bills & Utilities", "#FFEAA7", "💡"),
   ("Healthcare", "#DDA0DD", "🏥"),
   ("Education", "#98D8C8", "📚"),
   ("Travel", "#F7DC6F", "✈️")]

/-- Source `createDefaultCategories` (categoryService.ts lines 66-100): one `addDoc`
per default entry, each document marked default and active with expense
count 0, pushing the matching client record. -/
def createDefaultCategories (s : CatStore) (userId : String) :
    CatStore × List Category :=
  defaultCategories.foldl
    (fun acc dc =>
      let store := acc.1
      let docId := toString store.nextId
      let doc : CatDoc :=
        { id := docId
          data :=
            { userId := userId, name := dc.1, color := some dc.2.1, icon := some dc.2.2
              isDefault := some true, isActive := some true, expenseCount := some 0 } }
      ({ docs := store.docs ++ [doc], nextId := store.nextId + 1 },
       acc.2 ++
         [{ id := docId, userId := userId, name := dc.1, color := some dc.2.1
            icon := some dc.2.2, isDefault := true, isActive := true, expenseCount := 0 }]))
    (s, [])

/-- Source `ensureUserHasCategories` (categoryService.ts lines 250-263): read the
user's active categories; create the default set only when that list is
empty, else return the existing list and leave the store unchanged. -/
def ensureUserHasCategories (s : CatStore) (userId : String) :
    CatStore × List Category :=
  let existingCategories := getUserCategories s userId false
  if existingCategories.length = 0 then createDefaultCategories s userId
  else (s, existingCategories)

/-- Two concurrent invocations of `ensureUserHasCategories` whose read phases
both observe the same initial snapshot `s` (e.g. two browser tabs opening
simultaneously, the check-then-act race the code does not guard against):
each decides from `s` whether the category list is empty, then the create
phases run one after the other against the store. -/
def ensureTwiceRacy (s : CatStore) (userId : String) : CatStore :=
  let firstCreates := (getUserCategories s userId false).length = 0
  let s1 := if firstCreates then (createDefaultCategories s userId).1 else s
  let secondCreates := (getUserCategories s userId false).length = 0
  if secondCreates then (createDefaultCategories s1 userId).1 else s1

/-- A sample stored category document lacking every flag field. -/
def catDocSample : CatDoc :=
  { id := "c1", data := { userId := "u", name := "Food", color := none, icon := none
                          isDefault := none, isActive := none, expenseCount := none } }

/-- A sample store holding only `catDocSample`. -/
def catStoreSample : CatStore := { docs := [catDocSample], nextId := 1 }

/-! ### Category deletion reconciliation

`src/unnamed/part_002` (the `CategoryManagement` component backed by the
services), lines 102-127 (`handleDeleteCategory`) and 129-169
(`confirmDeleteCategory`).  The component's `expenses` prop and `categories`
state mirror the store contents; the per-record service calls made in the
loops are modelled as the store rewrites they perform. -/

/-- Models `expenseService.updateExpense(expense.id, { ...expense, category })`:
the stored record with the snapshot expense's id becomes the snapshot record
with the new category. -/
def updateExpenseWith (store : List Expense) (e : Expense) (category : String) :
    List Expense :=
  store.map (fun x => if x.id = e.id then { e with category := category } else x)

/-- Models `expenseService.deleteExpense(expenseId)`. -/
def deleteExpense (store : List Expense) (expenseId : String) : List Expense :=
  store.filter (fun x => ¬ x.id = expenseId)

/-- Models `categoryService.deleteCategory(categoryId)`: soft delete, flipping the
record's `isActive` to false. -/
def softDeleteCategory (cats : List Category) (categoryId : String) : List Category :=
  cats.map (fun c => if c.id = categoryId then { c with isActive := false } else c)

/-- Source `confirmDeleteCategory` (part_002 lines 129-169): find the category
object by name (early return when absent); for every expense whose category
equals the deleted name, sequentially either rewrite its category to the
replacement (`if (replacementCategory)`, i.e. nonempty) or delete the
expense; then soft-delete the category. -/
def confirmDeleteCategory (expenses : List Expense) (cats : List Category)
    (categoryToDelete replacementCategory : String) : List Expense × List Category :=
  match cats.find? (fun c => c.name = categoryToDelete) with
  | none => (expenses, cats)
  | some obj =>
    let expensesToUpdate := expenses.filter (fun e => e.category = categoryToDelete)
    let expenses' :=
      if replacementCategory ≠ "" then
        expensesToUpdate.foldl (fun acc e => updateExpenseWith acc e replacementCategory)
          expenses
      else
        expensesToUpdate.foldl (fun acc e => deleteExpense acc e.id) expenses
    (expenses', softDeleteCategory cats obj.id)

/-- Source `handleDeleteCategory` (part_002 lines 102-127): count the referencing
expenses, find the category object (early return when absent); when the
count is positive only enter the confirm-required state, else soft-delete
the category directly, touching no expense. -/
def handleDeleteCategory (expenses : List Expense) (cats : List Category)
    (showDeleteConfirm : Option String) (categoryToDelete : String) :
    List Expense × List Category × Option String :=
  let usageCount := (expenses.filter (fun e => e.category = categoryToDelete)).length
  match cats.find? (fun c => c.name = categoryToDelete) with
  | none => (expenses, cats, showDeleteConfirm)
  | some _obj =>
    if usageCount > 0 then (expenses, cats, some categoryToDelete)
    else (expenses, softDeleteCategory cats _obj.id, showDeleteConfirm)

/-- Sample data for the reconciliation claims: two expenses of the same
user, one in category "C", one already in category "R"; both categories
exist. -/
def reconExpenses : List Expense :=
  [{ id := "1", userId := "u", amount := 5, description := "d1", category := "C"
     date := "2025-01-01", createdAt := "t1" },
   { id := "2", userId := "u", amount := 3, description := "d2", category := "R"
     date := "2025-01-02", createdAt := "t2" }]

/-- Sample category list for the reconciliation claims. -/
def reconCats : List Category :=
  [{ id := "c1", userId := "u", name := "C", color := none, icon := none
     isDefault := false, isActive := true, expenseCount := 1 },
   { id := "c2", userId := "u", name := "R", color := none, icon := none
     isDefault := false, isActive := true, expenseCount := 1 }]

/-! ### CSV export

`src/src/utils/exportUtils.ts` lines 3-23 and `src/src/utils/storage.ts`
lines 43-63 (identical `exportToCSV`): header row, one comma-joined row per
expense with the description wrapped in double quotes (no escaping of any
kind), rows newline-joined.  Only the text production is modelled; the
client-side download trigger is I/O glue.  The repository contains no CSV
importer, so the parse direction of the round-trip property is modelled from
the spec. -/

/-- JS `Array.join(sep)` for a one-character separator. -/
def joinSep (c : Char) : List String → String
  | [] => ""
  | [s] => s
  | s :: t :: rest => s ++ String.singleton c ++ joinSep c (t :: rest)

/-- The backtickless template `'"' + description + '"'`. -/
def quoteField (s : String) : String := "\"" ++ s ++ "\""

/-- The header row `['Date', 'Description', 'Category', 'Amount', 'Created At'].join(',')`. -/
def csvHeader : String := joinSep ',' ["Date", "Description", "Category", "Amount", "Created At"]

/-- Decimal-free rendering of the rational modelling the JS number
`expense.amount` (numerator, and denominator when not 1). -/
def ratToString (q : ℚ) : String :=
  if q.den = 1 then toString q.num else toString q.num ++ "/" ++ toString q.den

/-- One CSV data row:
`[expense.date, '"' + description + '"', category, amount, createdAt].join(',')`. -/
def expenseCsvRow (e : Expense) : String :=
  joinSep ','
    [e.date, quoteField e.description, e.category, ratToString e.amount, e.createdAt]

/-- The full CSV text: `[headers.join(','), ...rows].join('\n')`. -/
def exportToCSVString (expenses : List Expense) : String :=
  joinSep '\n' (csvHeader :: expenses.map expenseCsvRow)

/-- Split a character list at every occurrence of the separator. -/
def splitCharList (c : Char) : List Char → List (List Char)
  | [] => [[]]
  | x :: xs =>
    match splitCharList c xs with
    | [] => [[]]
    | r :: rs => if x = c then [] :: r :: rs else (x :: r) :: rs

/-- Split a string at every occurrence of the separator character. -/
def splitChar (c : Char) (s : String) : List String :=
  (splitCharList c s.data).map (fun cs => String.mk cs)

/-- Modelled from the spec: strip the surrounding double quotes of the
description field (absent in the source, which has no CSV importer). -/
def unquote (s : String) : Option String :=
  match s.data with
  | [] => none
  | c0 :: rest =>
    if c0 = '"' ∧ rest.getLast? = some '"' then some (String.mk rest.dropLast) else none

/-- Modelled from the spec: parse one comma-joined data row back into its
`(date, description, category, amount)` tuple, expecting the five exported
fields with the description quoted. -/
def parseCsvRow (row : String) : Option (String × String × String × String) :=
  match splitChar ',' row with
  | [date, qdesc, cat, amt, _createdAt] =>
    match unquote qdesc with
    | some desc => some (date, desc, cat, amt)
    | none => none
  | _ => none

/-- Modelled from the spec: parse every data row, failing if any row fails. -/
def parseCsvRows : List String → Option (List (String × String × String × String))
  | [] => some []
  | r :: rs =>
    match parseCsvRow r, parseCsvRows rs with
    | some t, some ts => some (t :: ts)
    | _, _ => none

/-- Modelled from the spec: parse generated CSV text — split into
newline-delimited lines, check the header row, parse the data rows. -/
def parseCSV (text : String) : Option (List (String × String × String × String)) :=
  match splitChar '\n' text with
  | [] => none
  | header :: rows => if header = csvHeader then parseCsvRows rows else none

/-- Field contents under which the unescaped CSV format is unambiguous: no
separator characters inside the exported fields. -/
def csvClean (e : Expense) : Prop :=
  (',' ∉ e.date.data ∧ '\n' ∉ e.date.data) ∧
    (',' ∉ e.description.data ∧ '\n' ∉ e.description.data) ∧
    (',' ∉ e.category.data ∧ '\n' ∉ e.category.data) ∧
    (',' ∉ (ratToString e.amount).data ∧ '\n' ∉ (ratToString e.amount).data) ∧
    (',' ∉ e.createdAt.data ∧ '\n' ∉ e.createdAt.data)

instance (e : Expense) : Decidable (csvClean e) := by
  unfold csvClean
  infer_instance

/-- A clean expense for the round-trip witness. -/
def csvGoodExpense : Expense :=
  { id := "1", userId := "u", amount := 45, description := "Grocery shopping"
    category := "Food", date := "2025-01-15", createdAt := "2025-01-15T10:30:00Z" }

/-- An expense whose description contains a comma, breaking the unescaped
CSV format. -/
def csvBadExpense : Expense :=
  { id := "1", userId := "u", amount := 45, description := "milk, eggs"
    category := "Food", date := "2025-01-15", createdAt := "2025-01-15T10:30:00Z" }

/-! ### Lemmas and claim theorems -/

lemma totalsSum_bumpTotal (acc : List (String × ℚ)) (cat : String) (amt : ℚ) :
    totalsSum (bumpTotal acc cat amt) = totalsSum acc + amt := by
  induction acc with
  | nil => simp [bumpTotal, totalsSum]
  | cons p rest ih =>
    obtain ⟨k, v⟩ := p
    by_cases h : k = cat
    · simp [bumpTotal, h, totalsSum]
      ring
    · simp only [bumpTotal, if_neg h, totalsSum, List.map_cons, List.sum_cons]
      have := ih
      simp only [totalsSum] at this
      rw [this]
      ring

lemma totalsSum_foldl (expenses : List Expense) (acc : List (String × ℚ)) :
    totalsSum (expenses.foldl (fun a e => bumpTotal a e.category e.amount) acc)
      = totalsSum acc + amountSum expenses := by
  induction expenses generalizing acc with
  | nil => simp [amountSum]
  | cons e rest ih =>
    simp only [List.foldl_cons, amountSum, List.map_cons, List.sum_cons]
    rw [ih, totalsSum_bumpTotal]
    simp only [amountSum]
    ring

/-- C3: For every expense collection E, the sum of the per-category totals
produced by the group-by-category aggregation equals the sum of the amounts
of all expenses in E. -/
theorem categoryTotals_sum_eq_total (expenses : List Expense) :
    totalsSum (getCategoryTotals expenses) = amountSum expenses := by
  have h := totalsSum_foldl expenses []
  simpa [getCategoryTotals, totalsSum] using h

/-- C9: for a user whose expense list is empty, `getExpenseStats` returns
`averageAmount = 0` (the division is guarded by the count), together with
`totalAmount = 0` and both counts `0`. -/
theorem getExpenseStats_empty (store : List Expense) (userId : String)
    (h : getUserExpenses store userId = []) :
    getExpenseStats store userId =
      { totalExpenses := 0, totalAmount := 0, averageAmount := 0, expenseCount := 0 } := by
  simp [getExpenseStats, h]

/-- Witness for C9 at the empty store. -/
theorem getExpenseStats_empty_witness :
    getUserExpenses [] "user1" = [] ∧
      getExpenseStats [] "user1" =
        { totalExpenses := 0, totalAmount := 0, averageAmount := 0, expenseCount := 0 } :=
  ⟨by decide, getExpenseStats_empty [] "user1" (by decide)⟩

/-- C2: if the password authenticates against the provider but the email is
not allowed by the allowlist check, `signIn` returns a failure with the
user-facing rejection message and the provider session ends signed out. -/
theorem signIn_disallowed_rejects_and_signs_out
    (w : World) (email password : String) (fu : FirebaseUser)
    (hauth : w.authAttempt email password = ReadResult.ok fu)
    (hallow : isAuthorizedUser w.allowRead email = false) :
    (signIn w email password).2.success = false ∧
      (signIn w email password).2.error = some notAuthorizedMessage ∧
      (signIn w email password).1.session = none := by
  simp [signIn, hauth, hallow]

/-- Witness for C2: a world whose provider accepts the credentials but whose
allowlist has no entry for the email. -/
theorem signIn_disallowed_witness :
    disallowedWorld.authAttempt "a@b.c" "pw" =
        ReadResult.ok { uid := "u1", email := "a@b.c", displayName := none } ∧
      isAuthorizedUser disallowedWorld.allowRead "a@b.c" = false ∧
      (signIn disallowedWorld "a@b.c" "pw").2.success = false ∧
      (signIn disallowedWorld "a@b.c" "pw").2.error = some notAuthorizedMessage ∧
      (signIn disallowedWorld "a@b.c" "pw").1.session = none := by
  refine ⟨by simp [disallowedWorld], by simp [disallowedWorld, isAuthorizedUser], ?_⟩
  exact signIn_disallowed_rejects_and_signs_out disallowedWorld "a@b.c" "pw"
    ⟨"u1", "a@b.c", none⟩ (by simp [disallowedWorld]) (by simp [disallowedWorld, isAuthorizedUser])

/-- C8: the allowlist check is total and fail-closed: it returns `true`
exactly when the read succeeds, the entry exists and its `isActive` field is
exactly `true`; in particular a failed read yields `false`, not an
exception. -/
theorem isAuthorizedUser_fail_closed
    (allowRead : String → ReadResult (Option AllowDoc)) (email : String) :
    (isAuthorizedUser allowRead email = true ↔
        ∃ d, allowRead email = ReadResult.ok (some d) ∧ d.isActive = some true) ∧
      (allowRead email = ReadResult.err → isAuthorizedUser allowRead email = false) := by
  constructor
  · constructor
    · intro h
      unfold isAuthorizedUser at h
      match hr : allowRead email with
      | ReadResult.err => rw [hr] at h; exact absurd h (by simp)
      | ReadResult.ok none => rw [hr] at h; exact absurd h (by simp)
      | ReadResult.ok (some d) =>
        rw [hr] at h
        exact ⟨d, rfl, by simpa using h⟩
    · rintro ⟨d, hd, hact⟩
      simp [isAuthorizedUser, hd, hact]
  · intro hr
    simp [isAuthorizedUser, hr]

/-- Witness for C8: a read that fails is answered with `false`. -/
theorem isAuthorizedUser_fail_closed_witness :
    isAuthorizedUser (fun _ => ReadResult.err) "a@b.c" = false :=
  (isAuthorizedUser_fail_closed (fun _ => ReadResult.err) "a@b.c").2 rfl

lemma getUserCategoriesActive_eq_nil (s : CatStore) (userId : String)
    (h : s.docs.filter (fun d => d.data.userId = userId) = []) :
    getUserCategories s userId false = [] := by
  have hall : ∀ d ∈ s.docs, ¬(d.data.userId = userId) := by
    intro d hd
    have := List.filter_eq_nil_iff.mp h d hd
    simpa using this
  simp only [getUserCategories]
  simp only [Bool.false_eq_true, if_false, List.map_eq_nil_iff]
  refine List.filter_eq_nil_iff.mpr ?_
  intro d hd
  simp [hall d hd]

lemma createDefaultCategories_filter_length (s : CatStore) (userId : String) :
    ((createDefaultCategories s userId).1.docs.filter
        (fun d => d.data.userId = userId)).length
      = (s.docs.filter (fun d => d.data.userId = userId)).length + 8 := by
  simp [createDefaultCategories, defaultCategories, List.filter_append]

/-- C6: for a user with zero stored categories, one invocation of
`ensureUserHasCategories` yields exactly the fixed default set: the returned
names are the eight hardcoded default names in order, every returned record
is default, active, with expense count 0, and the store afterwards holds
exactly 8 category documents for the user — not a multiple of the set. -/
theorem ensureUserHasCategories_seeds_defaults (s : CatStore) (userId : String)
    (h : s.docs.filter (fun d => d.data.userId = userId) = []) :
    ((ensureUserHasCategories s userId).2.map (fun c => c.name)
        = defaultCategories.map (fun dc => dc.1)) ∧
      (∀ c ∈ (ensureUserHasCategories s userId).2,
        c.isDefault = true ∧ c.isActive = true ∧ c.expenseCount = 0 ∧ c.userId = userId) ∧
      ((ensureUserHasCategories s userId).1.docs.filter
          (fun d => d.data.userId = userId)).length = 8 := by
  have hact := getUserCategoriesActive_eq_nil s userId h
  have hrun : ensureUserHasCategories s userId = createDefaultCategories s userId := by
    simp [ensureUserHasCategories, hact]
  rw [hrun]
  refine ⟨?_, ?_, ?_⟩
  · simp [createDefaultCategories, defaultCategories]
  · intro c hc
    simp [createDefaultCategories, defaultCategories] at hc
    rcases hc with rfl | rfl | rfl | rfl | rfl | rfl | rfl | rfl <;>
      exact ⟨rfl, rfl, rfl, rfl⟩
  · rw [createDefaultCategories_filter_length s userId, h]
    rfl

/-- Witness for C6 at the empty store. -/
theorem ensureUserHasCategories_seeds_defaults_witness :
    (CatStore.mk [] 0).docs.filter (fun d => d.data.userId = "user1") = [] ∧
      (((ensureUserHasCategories (CatStore.mk [] 0) "user1").2.map (fun c => c.name)
          = defaultCategories.map (fun dc => dc.1)) ∧
        (∀ c ∈ (ensureUserHasCategories (CatStore.mk [] 0) "user1").2,
          c.isDefault = true ∧ c.isActive = true ∧ c.expenseCount = 0 ∧ c.userId = "user1") ∧
        ((ensureUserHasCategories (CatStore.mk [] 0) "user1").1.docs.filter
            (fun d => d.data.userId = "user1")).length = 8) :=
  ⟨by decide, ensureUserHasCategories_seeds_defaults (CatStore.mk [] 0) "user1" (by decide)⟩

/-- Counterexample for C7: calling `ensureUserHasCategories` twice in
sequence for a user who starts with zero categories leaves 8 category
documents, not 16 — the second call reads the 8 just-created active
categories and creates nothing. -/
theorem ensureUserHasCategories_sequential_twice_is_8 :
    ((ensureUserHasCategories
          (ensureUserHasCategories (CatStore.mk [] 0) "user1").1 "user1").1.docs.filter
        (fun d => d.data.userId = "user1")).length = 8 ∧
      ¬ ((ensureUserHasCategories
            (ensureUserHasCategories (CatStore.mk [] 0) "user1").1 "user1").1.docs.filter
          (fun d => d.data.userId = "user1")).length = 16 := by
  constructor <;> decide

/-- C7 (amended): the sequential double call is idempotent (see the
counterexample), but under the check-then-act race — two invocations whose
emptiness reads both observe the initial empty snapshot — two full default
sets are created: 16 category documents for the user. -/
theorem ensureTwiceRacy_creates_16 (s : CatStore) (userId : String)
    (h : s.docs.filter (fun d => d.data.userId = userId) = []) :
    ((ensureTwiceRacy s userId).docs.filter
        (fun d => d.data.userId = userId)).length = 16 := by
  have hact := getUserCategoriesActive_eq_nil s userId h
  have hempty : (getUserCategories s userId false).length = 0 := by rw [hact]; rfl
  have hrun : ensureTwiceRacy s userId
      = (createDefaultCategories (createDefaultCategories s userId).1 userId).1 := by
    simp [ensureTwiceRacy, hempty]
  rw [hrun, createDefaultCategories_filter_length, createDefaultCategories_filter_length, h]
  rfl

/-- Witness for the amended C7 at the empty store. -/
theorem ensureTwiceRacy_creates_16_witness :
    (CatStore.mk [] 0).docs.filter (fun d => d.data.userId = "user1") = [] ∧
      ((ensureTwiceRacy (CatStore.mk [] 0) "user1").docs.filter
          (fun d => d.data.userId = "user1")).length = 16 :=
  ⟨by decide, ensureTwiceRacy_creates_16 (CatStore.mk [] 0) "user1" (by decide)⟩

/-- C10: every converted category record has its flag fields defined with
the documented defaults (`isDefault` true only when stored exactly `true`,
`isActive` false only when stored exactly `false`, `expenseCount` 0 when
missing), and every record returned by the point lookup, the list query, or
the live-subscription snapshot is the conversion of some stored document. -/
theorem convertToCategory_flag_defaults :
    (∀ d : CatDoc,
        ((convertToCategory d).isDefault = true ↔ d.data.isDefault = some true) ∧
          ((convertToCategory d).isActive = false ↔ d.data.isActive = some false) ∧
          (d.data.expenseCount = none → (convertToCategory d).expenseCount = 0)) ∧
      (∀ s userId includeInactive c, c ∈ getUserCategories s userId includeInactive →
        ∃ d, d ∈ s.docs ∧ c = convertToCategory d) ∧
      (∀ s categoryId c, getCategory s categoryId = some c →
        ∃ d, d ∈ s.docs ∧ c = convertToCategory d) ∧
      (∀ s userId c, c ∈ subscribeSnapshot s userId →
        ∃ d, d ∈ s.docs ∧ c = convertToCategory d) := by
  refine ⟨?_, ?_, ?_, ?_⟩
  · intro d
    refine ⟨?_, ?_, ?_⟩
    · cases h : d.data.isDefault with
      | none => simp [convertToCategory, h]
      | some b => cases b <;> simp [convertToCategory, h]
    · cases h : d.data.isActive with
      | none => simp [convertToCategory, h]
      | some b => cases b <;> simp [convertToCategory, h]
    · intro h
      simp [convertToCategory, h]
  · intro s userId includeInactive c hc
    cases includeInactive <;>
      · simp only [getUserCategories, List.mem_map] at hc
        obtain ⟨d, hdf, rfl⟩ := hc
        exact ⟨d, List.mem_of_mem_filter hdf, rfl⟩
  · intro s categoryId c hc
    simp only [getCategory, Option.map_eq_some'] at hc
    obtain ⟨d, hd, rfl⟩ := hc
    exact ⟨d, List.mem_of_find?_eq_some hd, rfl⟩
  · intro s userId c hc
    simp only [subscribeSnapshot, List.mem_map] at hc
    obtain ⟨d, hdf, rfl⟩ := hc
    exact ⟨d, List.mem_of_mem_filter hdf, rfl⟩

/-- Witness for C10: the sample document's conversion is returned by the
list query and is the conversion of a stored document. -/
theorem convertToCategory_flag_defaults_witness :
    convertToCategory catDocSample ∈ getUserCategories catStoreSample "u" true ∧
      ∃ d, d ∈ catStoreSample.docs ∧ convertToCategory catDocSample = convertToCategory d :=
  ⟨by decide,
    convertToCategory_flag_defaults.2.1 catStoreSample "u" true
      (convertToCategory catDocSample) (by decide)⟩

lemma foldl_map_out (g : Expense → Expense → Expense) (l s : List Expense) :
    l.foldl (fun acc e => acc.map (g e)) s
      = s.map (fun x => l.foldl (fun y e => g e y) x) := by
  induction l generalizing s with
  | nil => simp
  | cons e l ih =>
    simp only [List.foldl_cons]
    rw [ih, List.map_map]
    rfl

lemma foldl_rewrite_fix (r : String) (l : List Expense) (y : Expense)
    (h : ∀ e ∈ l, y.id = e.id → ({ e with category := r } : Expense) = y) :
    l.foldl (fun y e => if y.id = e.id then { e with category := r } else y) y = y := by
  induction l with
  | nil => rfl
  | cons e l ih =>
    simp only [List.foldl_cons]
    by_cases he : y.id = e.id
    · rw [if_pos he, h e (List.mem_cons_self e l) he]
      exact ih fun e' he' => h e' (List.mem_cons_of_mem e he')
    · rw [if_neg he]
      exact ih fun e' he' => h e' (List.mem_cons_of_mem e he')

lemma foldl_rewrite_eq (r : String) (l : List Expense) (x : Expense)
    (h : ∀ e ∈ l, e.id = x.id → e = x) :
    l.foldl (fun y e => if y.id = e.id then { e with category := r } else y) x
      = if x.id ∈ l.map (fun e => e.id) then { x with category := r } else x := by
  induction l with
  | nil => simp
  | cons e l ih =>
    simp only [List.foldl_cons, List.map_cons, List.mem_cons]
    by_cases he : x.id = e.id
    · have hex : e = x := h e (List.mem_cons_self e l) he.symm
      rw [if_pos he, if_pos (Or.inl he)]
      subst hex
      exact foldl_rewrite_fix r l _ fun e' he' hid => by
        have : e'.id = e.id := by simpa using hid.symm
        rw [h e' (List.mem_cons_of_mem e he') this]
    · rw [if_neg he]
      rw [ih fun e' he' => h e' (List.mem_cons_of_mem e he')]
      by_cases hm : x.id ∈ l.map (fun e => e.id)
      · rw [if_pos hm, if_pos (Or.inr hm)]
      · rw [if_neg hm, if_neg (by simpa [he] using hm)]

/-- With unique expense ids, the sequential per-record update loop of the
replacement branch is the pointwise category rewrite of the store. -/
lemma confirm_replacement_loop_eq_map (expenses : List Expense) (C r : String)
    (hnodup : (expenses.map (fun e => e.id)).Nodup) :
    (expenses.filter (fun e => e.category = C)).foldl
        (fun acc e => updateExpenseWith acc e r) expenses
      = expenses.map
          (fun x => if x.category = C then { x with category := r } else x) := by
  have hinj : ∀ a ∈ expenses, ∀ b ∈ expenses, a.id = b.id → a = b := by
    intro a ha b hb hab
    exact List.inj_on_of_nodup_map hnodup ha hb hab
  have hfold := foldl_map_out
    (fun e x => if x.id = e.id then { e with category := r } else x)
    (expenses.filter (fun e => e.category = C)) expenses
  simp only [updateExpenseWith]
  rw [hfold]
  refine List.map_congr_left ?_
  intro x hx
  rw [foldl_rewrite_eq r _ x ?inj]
  case inj =>
    intro e he hid
    exact hinj e (List.mem_of_mem_filter he) x hx hid
  by_cases hxc : x.category = C
  · have hxmem : x ∈ expenses.filter (fun e => e.category = C) :=
      List.mem_filter.mpr ⟨hx, by simpa using hxc⟩
    rw [if_pos (List.mem_map.mpr ⟨x, hxmem, rfl⟩), if_pos hxc]
  · have hnm : x.id ∉ (expenses.filter (fun e => e.category = C)).map
        (fun e => e.id) := by
      intro hm
      obtain ⟨e, he, hid⟩ := List.mem_map.mp hm
      have : e = x := hinj e (List.mem_of_mem_filter he) x hx hid
      subst this
      exact hxc (by simpa using (List.mem_filter.mp he).2)
    rw [if_neg hnm, if_neg hxc]

lemma count_replaced (es : List Expense) (C R : String) (hRC : R ≠ C) :
    ((es.map (fun x => if x.category = C then { x with category := R } else x)).filter
        (fun e => e.category = R)).length
      = (es.filter (fun e => e.category = R)).length
        + (es.filter (fun e => e.category = C)).length := by
  induction es with
  | nil => rfl
  | cons x es ih =>
    simp only [List.map_cons, List.filter_cons]
    by_cases hx : x.category = C
    · have hxR : ¬ x.category = R := fun hr => hRC (by rw [← hr]; exact hx)
      have hCR : ¬ C = R := fun h => hRC h.symm
      rw [if_pos hx]
      simp only [List.length_cons]
      simp [hx, hxR, hRC, hCR, ih]
      omega
    · rw [if_neg hx]
      by_cases hxR : x.category = R
      · simp [hx, hxR, hRC, ih]
        omega
      · simp [hx, hxR, ih]

lemma count_deleted_cat (es : List Expense) (C R : String) (hRC : R ≠ C) :
    ((es.map (fun x => if x.category = C then { x with category := R } else x)).filter
        (fun e => e.category = C)).length = 0 := by
  induction es with
  | nil => rfl
  | cons x es ih =>
    by_cases hx : x.category = C
    · simp [List.filter_cons, hx, hRC, ih]
    · simp [List.filter_cons, hx, ih]

/-- C1 (amended): with unique expense ids, a replacement name that is
nonempty and differs from the deleted name, and the deleted category present
in the list, confirming the deletion rewrites each of the N referencing
expenses to the replacement and soft-deletes the category: afterwards the
expenses with the replacement category number the prior ones plus N, none
reference the deleted name, no expense is created or removed, and the
deleted category's record is inactive. -/
theorem confirmDeleteCategory_replacement (expenses : List Expense)
    (cats : List Category) (C R : String) (obj : Category)
    (hnodup : (expenses.map (fun e => e.id)).Nodup)
    (hfind : cats.find? (fun c => c.name = C) = some obj)
    (_hN : 0 < (expenses.filter (fun e => e.category = C)).length)
    (hR : ¬ R = "") (hRC : ¬ R = C) :
    (((confirmDeleteCategory expenses cats C R).1.filter
          (fun e => e.category = R)).length
        = (expenses.filter (fun e => e.category = R)).length
          + (expenses.filter (fun e => e.category = C)).length) ∧
      ((confirmDeleteCategory expenses cats C R).1.filter
          (fun e => e.category = C)).length = 0 ∧
      (confirmDeleteCategory expenses cats C R).1.length = expenses.length ∧
      (∀ c ∈ (confirmDeleteCategory expenses cats C R).2,
        c.id = obj.id → c.isActive = false) := by
  have hrw : (confirmDeleteCategory expenses cats C R).1
      = expenses.map (fun x => if x.category = C then { x with category := R } else x) := by
    simp only [confirmDeleteCategory, hfind, if_pos hR]
    exact confirm_replacement_loop_eq_map expenses C R hnodup
  have hcats : (confirmDeleteCategory expenses cats C R).2
      = softDeleteCategory cats obj.id := by
    simp [confirmDeleteCategory, hfind]
  refine ⟨?_, ?_, ?_, ?_⟩
  · rw [hrw]
    exact count_replaced expenses C R hRC
  · rw [hrw]
    exact count_deleted_cat expenses C R hRC
  · rw [hrw, List.length_map]
  · rw [hcats]
    intro c hc hcid
    obtain ⟨c0, _, rfl⟩ := List.mem_map.mp hc
    by_cases h0 : c0.id = obj.id
    · simp [h0]
    · rw [if_neg h0] at hcid ⊢
      exact absurd hcid h0

/-- Counterexample for C1 as stated: category "C" has N = 1 referencing
expense, yet after confirming deletion with replacement "R" the collection
holds 2 expenses with category "R", not exactly N = 1, because an expense
already carried the replacement category. -/
theorem confirmDeleteCategory_not_exactly_N :
    (reconExpenses.filter (fun e => e.category = "C")).length = 1 ∧
      ((confirmDeleteCategory reconExpenses reconCats "C" "R").1.filter
          (fun e => e.category = "R")).length = 2 ∧
      ¬ ((confirmDeleteCategory reconExpenses reconCats "C" "R").1.filter
          (fun e => e.category = "R")).length = 1 := by
  refine ⟨by decide, by decide, by decide⟩

/-- Witness for the amended C1 on the sample data. -/
theorem confirmDeleteCategory_replacement_witness :
    ((reconExpenses.map (fun e => e.id)).Nodup ∧
        reconCats.find? (fun c => c.name = "C") = some
          { id := "c1", userId := "u", name := "C", color := none, icon := none
            isDefault := false, isActive := true, expenseCount := 1 } ∧
        0 < (reconExpenses.filter (fun e => e.category = "C")).length ∧
        ¬ "R" = "" ∧ ¬ "R" = "C") ∧
      (((confirmDeleteCategory reconExpenses reconCats "C" "R").1.filter
            (fun e => e.category = "R")).length
          = (reconExpenses.filter (fun e => e.category = "R")).length
            + (reconExpenses.filter (fun e => e.category = "C")).length) ∧
        ((confirmDeleteCategory reconExpenses reconCats "C" "R").1.filter
            (fun e => e.category = "C")).length = 0 ∧
        (confirmDeleteCategory reconExpenses reconCats "C" "R").1.length
          = reconExpenses.length ∧
        (∀ c ∈ (confirmDeleteCategory reconExpenses reconCats "C" "R").2,
          c.id = "c1" → c.isActive = false) :=
  ⟨⟨by decide, by decide, by decide, by decide, by decide⟩,
    confirmDeleteCategory_replacement reconExpenses reconCats "C" "R"
      { id := "c1", userId := "u", name := "C", color := none, icon := none
        isDefault := false, isActive := true, expenseCount := 1 }
      (by decide) (by decide) (by decide) (by decide) (by decide)⟩

/-- C5: deleting a category with zero referencing expenses soft-deletes it
directly: the expense list is returned untouched, the confirm-required state
is not entered (the confirm field keeps its prior value), and the category
list keeps its length with the target record flipped inactive and every
other record unchanged. -/
theorem handleDeleteCategory_unused_direct (expenses : List Expense)
    (cats : List Category) (showDeleteConfirm : Option String)
    (D : String) (obj : Category)
    (hfind : cats.find? (fun c => c.name = D) = some obj)
    (husage : (expenses.filter (fun e => e.category = D)).length = 0) :
    (handleDeleteCategory expenses cats showDeleteConfirm D).1 = expenses ∧
      (handleDeleteCategory expenses cats showDeleteConfirm D).2.2 = showDeleteConfirm ∧
      (handleDeleteCategory expenses cats showDeleteConfirm D).2.1.length = cats.length ∧
      (∀ c ∈ (handleDeleteCategory expenses cats showDeleteConfirm D).2.1,
        c.id = obj.id → c.isActive = false) ∧
      (∀ c ∈ (handleDeleteCategory expenses cats showDeleteConfirm D).2.1,
        ¬ c.id = obj.id → c ∈ cats) := by
  have hrun : handleDeleteCategory expenses cats showDeleteConfirm D
      = (expenses, softDeleteCategory cats obj.id, showDeleteConfirm) := by
    simp [handleDeleteCategory, hfind, husage]
  rw [hrun]
  refine ⟨rfl, rfl, by simp [softDeleteCategory], ?_, ?_⟩
  · intro c hc hcid
    obtain ⟨c0, _, rfl⟩ := List.mem_map.mp hc
    by_cases h0 : c0.id = obj.id
    · simp [h0]
    · rw [if_neg h0] at hcid ⊢
      exact absurd hcid h0
  · intro c hc hcid
    obtain ⟨c0, hc0, rfl⟩ := List.mem_map.mp hc
    by_cases h0 : c0.id = obj.id
    · rw [if_pos h0] at hcid
      simp at hcid
      exact absurd h0 hcid
    · rw [if_neg h0]
      exact hc0

/-- Witness for C5: the user's only category "C" is unused by the single
expense (which references "R"). -/
theorem handleDeleteCategory_unused_direct_witness :
    ((reconCats.drop 1).find? (fun c => c.name = "R") = some
        { id := "c2", userId := "u", name := "R", color := none, icon := none
          isDefault := false, isActive := true, expenseCount := 1 } ∧
      ((reconExpenses.take 1).filter (fun e => e.category = "R")).length = 0) ∧
      ((handleDeleteCategory (reconExpenses.take 1) (reconCats.drop 1) none "R").1
          = reconExpenses.take 1 ∧
        (handleDeleteCategory (reconExpenses.take 1) (reconCats.drop 1) none "R").2.2
          = none ∧
        (handleDeleteCategory (reconExpenses.take 1) (reconCats.drop 1) none "R").2.1.length
          = (reconCats.drop 1).length ∧
        (∀ c ∈ (handleDeleteCategory (reconExpenses.take 1) (reconCats.drop 1) none "R").2.1,
          c.id = "c2" → c.isActive = false) ∧
        (∀ c ∈ (handleDeleteCategory (reconExpenses.take 1) (reconCats.drop 1) none "R").2.1,
          ¬ c.id = "c2" → c ∈ reconCats.drop 1)) :=
  ⟨⟨by decide, by decide⟩,
    handleDeleteCategory_unused_direct (reconExpenses.take 1) (reconCats.drop 1) none "R"
      { id := "c2", userId := "u", name := "R", color := none, icon := none
        isDefault := false, isActive := true, expenseCount := 1 }
      (by decide) (by decide)⟩

lemma splitCharList_ne_nil (c : Char) (cs : List Char) : splitCharList c cs ≠ [] := by
  cases cs with
  | nil => simp [splitCharList]
  | cons x xs =>
    simp only [splitCharList]
    match h : splitCharList c xs with
    | [] => simp
    | r :: rs =>
      by_cases hx : x = c <;> simp [hx]

lemma splitCharList_no_sep (c : Char) (cs : List Char) (h : c ∉ cs) :
    splitCharList c cs = [cs] := by
  induction cs with
  | nil => rfl
  | cons x xs ih =>
    have hx : ¬ x = c := fun e => h (e ▸ List.mem_cons_self x xs)
    have hxs : c ∉ xs := fun hm => h (List.mem_cons_of_mem x hm)
    simp only [splitCharList, ih hxs]
    simp [hx]

lemma splitCharList_sep_append (c : Char) (f rest : List Char) (hf : c ∉ f) :
    splitCharList c (f ++ c :: rest) = f :: splitCharList c rest := by
  induction f with
  | nil =>
    simp only [List.nil_append, splitCharList]
    match h : splitCharList c rest with
    | [] => exact absurd h (splitCharList_ne_nil c rest)
    | r :: rs => simp
  | cons x xs ih =>
    have hx : ¬ x = c := fun e => hf (e ▸ List.mem_cons_self x xs)
    have hxs : c ∉ xs := fun hm => hf (List.mem_cons_of_mem x hm)
    simp only [List.cons_append, splitCharList, List.append_eq]
    rw [ih hxs]
    simp [hx]

lemma data_joinSep_cons (c : Char) (s t : String) (fs : List String) :
    (joinSep c (s :: t :: fs)).data = s.data ++ c :: (joinSep c (t :: fs)).data := by
  have hsing : (String.singleton c).data = [c] := rfl
  simp [joinSep, String.data_append, hsing]

lemma splitChar_joinSep (c : Char) (fs : List String) (hne : fs ≠ [])
    (h : ∀ f ∈ fs, c ∉ f.data) : splitChar c (joinSep c fs) = fs := by
  induction fs with
  | nil => exact absurd rfl hne
  | cons s fs ih =>
    cases fs with
    | nil =>
      have hs : c ∉ s.data := h s (List.mem_cons_self s [])
      simp [splitChar, joinSep, splitCharList_no_sep c s.data hs]
    | cons t fs =>
      have hs : c ∉ s.data := h s (List.mem_cons_self _ _)
      have hrest : ∀ f ∈ t :: fs, c ∉ f.data := fun f hf => h f (List.mem_cons_of_mem s hf)
      have ihr := ih (by simp) hrest
      simp only [splitChar] at ihr ⊢
      rw [data_joinSep_cons, splitCharList_sep_append c s.data _ hs]
      simp [List.map_cons, ihr]

lemma not_mem_joinSep (c q : Char) (fs : List String) (hqc : ¬ q = c)
    (h : ∀ f ∈ fs, q ∉ f.data) : q ∉ (joinSep c fs).data := by
  induction fs with
  | nil => simp [joinSep, String.data]
  | cons s fs ih =>
    cases fs with
    | nil => exact h s (List.mem_cons_self s [])
    | cons t fs =>
      rw [data_joinSep_cons]
      intro hm
      rcases List.mem_append.mp hm with hm | hm
      · exact h s (List.mem_cons_self _ _) hm
      · rcases List.mem_cons.mp hm with hm | hm
        · exact hqc hm
        · exact ih (fun f hf => h f (List.mem_cons_of_mem s hf)) hm

lemma data_quoteField (s : String) : (quoteField s).data = '"' :: (s.data ++ ['"']) := by
  have h1 : ("\"" : String).data = ['"'] := rfl
  simp [quoteField, String.data_append, h1]

lemma unquote_quoteField (s : String) : unquote (quoteField s) = some s := by
  simp [unquote, data_quoteField, List.getLast?_concat, List.dropLast_concat]

lemma parse_expenseCsvRow (e : Expense) (hc : csvClean e) :
    parseCsvRow (expenseCsvRow e)
      = some (e.date, e.description, e.category, ratToString e.amount) := by
  obtain ⟨⟨hd, _⟩, ⟨hdesc, _⟩, ⟨hcat, _⟩, ⟨hamt, _⟩, ⟨hcr, _⟩⟩ := hc
  have hq : ',' ∉ (quoteField e.description).data := by
    rw [data_quoteField]
    intro hm
    rcases List.mem_cons.mp hm with hm | hm
    · exact absurd hm (by decide)
    · rcases List.mem_append.mp hm with hm | hm
      · exact hdesc hm
      · exact absurd (List.mem_singleton.mp hm) (by decide)
  have hfields : ∀ f ∈ [e.date, quoteField e.description, e.category,
      ratToString e.amount, e.createdAt], ',' ∉ f.data := by
    intro f hf
    rcases List.mem_cons.mp hf with rfl | hf; · exact hd
    rcases List.mem_cons.mp hf with rfl | hf; · exact hq
    rcases List.mem_cons.mp hf with rfl | hf; · exact hcat
    rcases List.mem_cons.mp hf with rfl | hf; · exact hamt
    rcases List.mem_cons.mp hf with rfl | hf; · exact hcr
    exact absurd hf (List.not_mem_nil f)
  have hsplit := splitChar_joinSep ',' [e.date, quoteField e.description, e.category,
    ratToString e.amount, e.createdAt] (by simp) hfields
  simp only [parseCsvRow, expenseCsvRow, hsplit, unquote_quoteField]

lemma no_newline_in_expenseCsvRow (e : Expense) (hc : csvClean e) :
    '\n' ∉ (expenseCsvRow e).data := by
  obtain ⟨⟨_, hd⟩, ⟨_, hdesc⟩, ⟨_, hcat⟩, ⟨_, hamt⟩, ⟨_, hcr⟩⟩ := hc
  refine not_mem_joinSep ',' '\n' _ (by decide) ?_
  intro f hf
  rcases List.mem_cons.mp hf with rfl | hf
  · exact hd
  rcases List.mem_cons.mp hf with rfl | hf
  · rw [data_quoteField]
    intro hm
    rcases List.mem_cons.mp hm with hm | hm
    · exact absurd hm (by decide)
    · rcases List.mem_append.mp hm with hm | hm
      · exact hdesc hm
      · exact absurd (List.mem_singleton.mp hm) (by decide)
  rcases List.mem_cons.mp hf with rfl | hf; · exact hcat
  rcases List.mem_cons.mp hf with rfl | hf; · exact hamt
  rcases List.mem_cons.mp hf with rfl | hf; · exact hcr
  exact absurd hf (List.not_mem_nil f)

lemma parseCsvRows_map (expenses : List Expense) (h : ∀ e ∈ expenses, csvClean e) :
    parseCsvRows (expenses.map expenseCsvRow)
      = some (expenses.map
          (fun e => (e.date, e.description, e.category, ratToString e.amount))) := by
  induction expenses with
  | nil => rfl
  | cons e es ih =>
    simp only [List.map_cons, parseCsvRows,
      parse_expenseCsvRow e (h e (List.mem_cons_self _ _)),
      ih fun e' he' => h e' (List.mem_cons_of_mem e he')]

/-- C4 (amended): when no exported field contains a separator — the date,
category, amount rendering and creation-time fields contain no comma and no
newline, and the description contains no comma and no newline — parsing the
generated CSV text recovers exactly the `(date, description, category,
amount)` tuples of the input collection, in order. -/
theorem exportToCSV_roundtrip (expenses : List Expense)
    (h : ∀ e ∈ expenses, csvClean e) :
    parseCSV (exportToCSVString expenses)
      = some (expenses.map
          (fun e => (e.date, e.description, e.category, ratToString e.amount))) := by
  have hlines : ∀ f ∈ csvHeader :: expenses.map expenseCsvRow, '\n' ∉ f.data := by
    intro f hf
    rcases List.mem_cons.mp hf with rfl | hf
    · decide
    · obtain ⟨e, he, rfl⟩ := List.mem_map.mp hf
      exact no_newline_in_expenseCsvRow e (h e he)
  have hsplit := splitChar_joinSep '\n' (csvHeader :: expenses.map expenseCsvRow)
    (by simp) hlines
  simp only [parseCSV, exportToCSVString, hsplit, if_pos rfl]
  exact parseCsvRows_map expenses h

/-- Witness for the amended C4 on a clean expense collection. -/
theorem exportToCSV_roundtrip_witness :
    (∀ e ∈ [csvGoodExpense], csvClean e) ∧
      parseCSV (exportToCSVString [csvGoodExpense])
        = some [(csvGoodExpense.date, csvGoodExpense.description,
            csvGoodExpense.category, ratToString csvGoodExpense.amount)] :=
  ⟨by decide, exportToCSV_roundtrip [csvGoodExpense] (by decide)⟩

/-- Counterexample for C4 as stated: the exporter writes the comma inside
the description unescaped, so the exported row has six comma-separated
fields and parsing does not return the input tuple list. -/
theorem exportToCSV_roundtrip_fails_on_comma :
    parseCSV (exportToCSVString [csvBadExpense]) = none ∧
      ¬ parseCSV (exportToCSVString [csvBadExpense])
          = some [(csvBadExpense.date, csvBadExpense.description,
              csvBadExpense.category, ratToString csvBadExpense.amount)] := by
  constructor <;> decide

end ExpenseTracker
